import Mathlib

/-!
Shallow embedding of the moccasin feed reader core: the storage repository
and fetch orchestrator (`src/repo/mod.rs`) and the application state with
its tick loop, navigation state machine and stateful lists (`src/app.rs`).

Machine integers (`usize`) are modeled as `Nat`: none of the embedded code
paths can overflow a 64-bit counter on inputs the program can hold in
memory, and all arithmetic on them here (`current + 1`, `len - 1`, `i + 1`,
`i - 1`) stays far below `2^64` whenever the list lengths do.

Effects are made explicit: the event channel is a queue value threaded
through `tick`, the database is a list of stored documents threaded through
the repository operations, and the fallible external calls
(`bson::to_document`, `collection.find_one`, per-record cursor decoding)
are parameterized by boolean oracles saying on which records they fail.
-/

namespace Moccasin

/-- An entry of a feed (`crate::feed::Item`, external to the two embedded
files); only its existence matters to the embedded code, which stores and
moves items around without inspecting them. -/
structure Item where
  title : Option String
  link : Option String
deriving DecidableEq, Repr

/-- A syndication feed (`crate::feed::Feed`): title, link (the unique
storage key), last-fetched timestamp, and the ordered items. -/
structure Feed where
  title : String
  link : String
  lastFetched : Nat
  items : List Item
deriving DecidableEq, Repr

/-- `crate::config::SortOrder`. -/
inductive SortOrder
  | Az
  | Za
  | Custom
  | Newest
  | Oldest
deriving DecidableEq, Repr

/-- The slice of `crate::config::Config` the embedded code reads:
`feed_urls()` and `sort_order()`. -/
structure Config where
  feedUrls : List String
  sortOrder : SortOrder
deriving DecidableEq, Repr

/-- `FetchErr` (repo/mod.rs:16-20). -/
inductive FetchErr
  | Request
  | Deserialize
  | Parse
deriving DecidableEq, Repr

/-- `StorageEvent` (repo/mod.rs:9-13). -/
inductive StorageEvent
  | RetrievedAll (feeds : List Feed)
  | Requesting (amount : Nat)
  | Fetched (counts : Nat × Nat)
deriving DecidableEq, Repr

def isFetched : StorageEvent → Bool
  | .Fetched _ => true
  | _ => false

def isRetrievedAll : StorageEvent → Bool
  | .RetrievedAll _ => true
  | _ => false

/-- The index used by the `Custom` arm of `sort_feeds` (repo/mod.rs:46-47):
`urls.iter().position(|u| f.link() == u).unwrap_or_default()`, i.e. the
position of the feed's link in the configured URL list, defaulting to 0
when absent. -/
def customIdx (urls : List String) (f : Feed) : Nat :=
  (urls.findIdx? (fun u => f.link == u)).getD 0

/-- The comparator of `sort_feeds` (repo/mod.rs:35-54) as a boolean
`≤`-style relation: `feedLe config a b` holds iff the Rust comparator on
`(a, b)` returns `Less` or `Equal`. `Newest` and `Oldest` are embedded
exactly as the source writes them (`Newest` compares ascending). -/
def feedLe (config : Config) (a b : Feed) : Bool :=
  match config.sortOrder with
  | .Az => decide (a.title ≤ b.title)
  | .Za => decide (b.title ≤ a.title)
  | .Custom => decide (customIdx config.feedUrls a ≤ customIdx config.feedUrls b)
  | .Newest => decide (a.lastFetched ≤ b.lastFetched)
  | .Oldest => decide (b.lastFetched ≤ a.lastFetched)

/-- `sort_feeds` (repo/mod.rs:35-54). Rust's `sort_by` is a stable sort by
the comparator; `List.insertionSort` is the stable sort by the same
relation, hence computes the same permutation. -/
def sort_feeds (feeds : List Feed) (config : Config) : List Feed :=
  List.insertionSort (fun a b => feedLe config a b = true) feeds

/-- The polodb `feeds` collection, modeled as the list of stored documents
in insertion order. -/
abbrev Db := List Feed

/-- `collection.find_one(doc! { "link": l })`: the first stored record
whose link equals `l`. -/
def findOne (db : Db) (link : String) : Option Feed :=
  db.find? (fun f => f.link == link)

/-- `collection.update_one(query, update)` where `update` is the whole new
document. Modelled from the spec: "If found, replace it wholesale with the
new record" (polodb is external to the repository); replaces the first
record matching the link query. -/
def updateOne (db : Db) (link : String) (f : Feed) : Db :=
  match db with
  | [] => []
  | g :: rest => if g.link == link then f :: rest else g :: updateOne rest link f

/-- `collection.insert_one(feed)`: appends a new document. -/
def insertOne (db : Db) (f : Feed) : Db :=
  db ++ [f]

/-- `Repository::store_all` (repo/mod.rs:85-103). Per feed:
`bson::to_document(feed)?` (its failure, `serErr f = true`, returns early
out of the whole function with an `Err`), then `find_one` on the link
(`lkErr f = true` models its `Err` arm, which skips just that feed), then
`update_one` on a hit and `insert_one` on a miss, both with their results
discarded. Returns the collection after the call together with `true` for
`Ok(())` and `false` for the early `Err`. -/
def store_all (serErr lkErr : Feed → Bool) (db : Db) : List Feed → Db × Bool
  | [] => (db, true)
  | f :: rest =>
    if serErr f then (db, false)
    else if lkErr f then store_all serErr lkErr db rest
    else
      match findOne db f.link with
      | some _ => store_all serErr lkErr (updateOne db f.link f) rest
      | none => store_all serErr lkErr (insertOne db f) rest

/-- The error-free oracle: the external call succeeds on every record. -/
def noErr : Feed → Bool := fun _ => false

/-- `Repository::get_all_from_db` (repo/mod.rs:72-83): read the whole
collection, drop records whose decoding fails (`filter_map(|f| f.ok())`,
modeled by the `decodeOk` oracle), and sort per the configured order. -/
def get_all_from_db (decodeOk : Feed → Bool) (db : Db) (config : Config) : List Feed :=
  sort_feeds (db.filter decodeOk) config

/-- The successful results collected by the aggregator
(repo/mod.rs:149-158): the `Ok` feeds in dispatch order, failures dropped. -/
def successes (results : List (Except FetchErr Feed)) : List Feed :=
  results.filterMap (fun r => r.toOption)

/-- `Repository::refresh_all` (repo/mod.rs:105-163), modeled as the trace
of `StorageEvent`s sent on `app_tx` during one refresh cycle. `results`
gives, in dispatch order, the outcome of each URL's fetch / read-bytes /
parse pipeline; `sched` is the order in which the concurrently spawned
per-feed tasks reach their `Fetched` send - any permutation of the
dispatch indices `0..count`. The function first sends
`Requesting(count)`, each task `n` sends `Fetched((n, count))` whatever
its outcome, and after `join_all` the sorted successes are sent as
`RetrievedAll`. -/
def refresh_all (config : Config) (results : List (Except FetchErr Feed))
    (sched : List Nat) : List StorageEvent :=
  let count := results.length
  StorageEvent.Requesting count ::
    (sched.map (fun n => StorageEvent.Fetched (n, count)) ++
      [StorageEvent.RetrievedAll (sort_feeds (successes results) config)])

/-- `LoadState` (app.rs:35-40). -/
inductive LoadState
  | Loading (counts : Nat × Nat)
  | Errored
  | Done
deriving DecidableEq, Repr

def LoadState.isLoading : LoadState → Bool
  | .Loading _ => true
  | _ => false

/-- `ActiveView` (app.rs:390-395). -/
inductive ActiveView
  | Feeds
  | Items
  | Detail
deriving DecidableEq, Repr

/-- `tui::widgets::ListState`: an optional selected index plus a scroll
offset. `select` is modelled from the spec boundary of the external tui
crate: it stores the new selection, and clearing the selection resets the
offset to 0. -/
structure ListState where
  selected : Option Nat := none
  offset : Nat := 0
deriving DecidableEq, Repr

def ListState.select (s : ListState) (i : Option Nat) : ListState :=
  { selected := i, offset := if i.isNone then 0 else s.offset }

/-- `StatefulList<T>` (app.rs:397-401). -/
structure StatefulList (α : Type) where
  state : ListState := {}
  items : List α := []
deriving DecidableEq, Repr

/-- `StatefulList::with_items` (app.rs:404-409). -/
def StatefulList.with_items (items : List α) : StatefulList α :=
  { state := {}, items := items }

/-- `StatefulList::next` (app.rs:411-427). -/
def StatefulList.next (l : StatefulList α) : StatefulList α :=
  if l.items.length = 0 then l
  else
    let i :=
      match l.state.selected with
      | some i => if i ≥ l.items.length - 1 then 0 else i + 1
      | none => 0
    { l with state := l.state.select (some i) }

/-- `StatefulList::previous` (app.rs:429-445). -/
def StatefulList.previous (l : StatefulList α) : StatefulList α :=
  if l.items.length = 0 then l
  else
    let i :=
      match l.state.selected with
      | some i => if i ≤ 0 then l.items.length - 1 else i - 1
      | none => 0
    { l with state := l.state.select (some i) }

/-- The application state (app.rs:44-59) restricted to the fields the
embedded operations read or write: the active view, the two stateful
lists, and the load state. The repository's collection is inlined as
`db` (the `Repository` owns nothing else the embedded code touches); the
purely visual scrollbar states, terminal dimensions, `running`,
`show_keybinds` and the config are not read by any embedded operation
below and are left out. -/
structure App where
  activeView : ActiveView
  feeds : StatefulList Feed
  items : StatefulList Item
  loadState : LoadState
  db : Db
deriving DecidableEq, Repr

/-- `App::current_feed` (app.rs:145-150). -/
def App.current_feed (s : App) : Option Feed :=
  s.feeds.state.selected.bind (fun i => s.feeds.items[i]?)

/-- `App::current_item` (app.rs:152-157). -/
def App.current_item (s : App) : Option Item :=
  s.items.state.selected.bind (fun i => s.items.items[i]?)

/-- `App::set_feeds` (app.rs:356-360): replaces the feed list; the calls
clearing the items selection and resetting the view are commented out in
the source, so nothing but the list itself changes. -/
def App.set_feeds (s : App) (feeds : List Feed) : App :=
  { s with feeds := { s.feeds with items := feeds } }

/-- `App::next_item` (app.rs:193-201); the scrollbar update is dropped
with the scrollbar state. -/
def App.next_item (s : App) : App :=
  { s with items := s.items.next }

/-- `App::prev_item` (app.rs:203-211). -/
def App.prev_item (s : App) : App :=
  { s with items := s.items.previous }

/-- `App::next_feed` (app.rs:159-174): advance the feed selection, then,
when a feed is now current, replace the items list (only the list - the
items selection is untouched here). -/
def App.next_feed (s : App) : App :=
  let s := { s with feeds := s.feeds.next }
  match s.current_feed with
  | some channel => { s with items := { s.items with items := channel.items } }
  | none => s

/-- `App::prev_feed` (app.rs:176-191). -/
def App.prev_feed (s : App) : App :=
  let s := { s with feeds := s.feeds.previous }
  match s.current_feed with
  | some channel => { s with items := { s.items with items := channel.items } }
  | none => s

/-- `App::next_view` (app.rs:213-248). -/
def App.next_view (s : App) (wrap : Bool) : App :=
  let hasCurrentFeed := s.current_feed.isSome
  let hasCurrentItem := s.current_item.isSome
  if !hasCurrentFeed then { s with activeView := .Feeds }
  else
    match s.activeView with
    | .Feeds =>
      let s := if s.items.state.selected.isNone then s.next_item else s
      { s with activeView := .Items }
    | .Items =>
      if hasCurrentItem then { s with activeView := .Detail }
      else if wrap then { s with activeView := .Feeds }
      else s
    | .Detail =>
      if wrap then { s with activeView := .Feeds } else s

/-- `App::prev_view` (app.rs:250-274). -/
def App.prev_view (s : App) (wrap : Bool) : App :=
  let hasCurrentFeed := s.current_feed.isSome
  let hasCurrentItem := s.current_item.isSome
  if !hasCurrentFeed then { s with activeView := .Feeds }
  else
    match s.activeView with
    | .Feeds =>
      if wrap && hasCurrentItem then { s with activeView := .Detail }
      else if wrap then { s with activeView := .Items }
      else s
    | .Items => { s with activeView := .Feeds }
    | .Detail => { s with activeView := .Items }

/-- The body of the `Poll::Ready(Some(m))` arm of the loop in `App::tick`
(app.rs:97-112): one drained event applied to the application state. The
oracles are those of `store_all`, whose result - error or not - is
discarded by the `let _ =` at app.rs:109. -/
def App.handle_event (serErr lkErr : Feed → Bool) (s : App) (e : StorageEvent) : App :=
  match e with
  | .Requesting amount => { s with loadState := .Loading (0, amount) }
  | .Fetched counts =>
    let counts :=
      match s.loadState with
      | .Loading (current, total) => (current + 1, total)
      | _ => counts
    { s with loadState := .Loading counts }
  | .RetrievedAll feeds =>
    let s := { s with db := (store_all serErr lkErr s.db feeds).1 }
    let s := s.set_feeds feeds
    { s with loadState := .Done }

/-- `Poll` (std::task::Poll). -/
inductive Poll (α : Type)
  | Ready (val : α)
  | Pending
deriving DecidableEq, Repr

/-- The receiving half of the unbounded channel: the queued events in send
order, plus whether every sender has been dropped (closed). -/
structure Channel where
  queue : List StorageEvent
  closed : Bool
deriving DecidableEq, Repr

/-- `UnboundedReceiver::poll_recv`: `Ready(Some(e))` popping the head when
an event is queued, `Ready(None)` when the channel is closed and empty,
`Pending` when it is open and empty. -/
def Channel.poll_recv (ch : Channel) : Poll (Option StorageEvent) × Channel :=
  match ch.queue with
  | e :: rest => (.Ready (some e), { ch with queue := rest })
  | [] => if ch.closed then (.Ready none, ch) else (.Pending, ch)

/-- `App::tick` (app.rs:91-122): loop polling the receiver, handling each
`Ready(Some(_))` event, breaking on `Ready(None)` (closed and drained) and
on `Pending` (nothing further available right now). -/
def App.tick (serErr lkErr : Feed → Bool) (s : App) (ch : Channel) : App × Channel :=
  match h : ch.poll_recv with
  | (.Ready (some e), ch') => App.tick serErr lkErr (s.handle_event serErr lkErr e) ch'
  | (.Ready none, ch') => (s, ch')
  | (.Pending, ch') => (s, ch')
termination_by ch.queue.length
decreasing_by
  cases hq : ch.queue with
  | nil =>
    simp only [Channel.poll_recv, hq] at h
    split at h <;> simp_all
  | cons a rest =>
    simp only [Channel.poll_recv, hq, Prod.mk.injEq] at h
    cases h.2
    simp

/-! Concrete sample values used by witnesses and counterexamples. -/

def fU1 : Feed := { title := "B", link := "u1", lastFetched := 5, items := [] }

def fU3 : Feed := { title := "A", link := "u3", lastFetched := 9, items := [] }

def cfgC : Config := { feedUrls := ["u1", "u2", "u3"], sortOrder := .Custom }

def appDone : App :=
  { activeView := .Feeds, feeds := {}, items := {}, loadState := .Done, db := [] }

/-! Helper lemmas for `App.tick`. -/

theorem tick_nil (serErr lkErr : Feed → Bool) (s : App) (c : Bool) :
    App.tick serErr lkErr s ⟨[], c⟩ = (s, ⟨[], c⟩) := by
  cases c <;> rw [App.tick] <;> simp [Channel.poll_recv]

theorem tick_cons (serErr lkErr : Feed → Bool) (s : App) (e : StorageEvent)
    (q : List StorageEvent) (c : Bool) :
    App.tick serErr lkErr s ⟨e :: q, c⟩ =
      App.tick serErr lkErr (s.handle_event serErr lkErr e) ⟨q, c⟩ := by
  rw [App.tick]
  simp [Channel.poll_recv]

theorem tick_run (serErr lkErr : Feed → Bool) (q : List StorageEvent) :
    ∀ (s : App) (c : Bool),
      App.tick serErr lkErr s ⟨q, c⟩ =
        (q.foldl (fun a e => a.handle_event serErr lkErr e) s, ⟨[], c⟩) := by
  induction q with
  | nil => intro s c; simpa using tick_nil serErr lkErr s c
  | cons e rest ih => intro s c; rw [tick_cons, ih]; rfl

/-- Claim C2: for every queue state, one call of `App::tick` drains every
event currently available in the channel without suspending: with zero
pending events (channel still open) it returns leaving the application
state unchanged, with K queued events it processes all K in this one call,
and when the channel is closed and empty it stops draining with no further
state change. (Non-suspension is captured by `tick` being a total function
of the channel value: it consumes exactly the queued events and returns.) -/
theorem C2_tick_drains_all (serErr lkErr : Feed → Bool) (s : App)
    (q : List StorageEvent) (c : Bool) :
    App.tick serErr lkErr s ⟨[], false⟩ = (s, ⟨[], false⟩) ∧
    App.tick serErr lkErr s ⟨[], true⟩ = (s, ⟨[], true⟩) ∧
    App.tick serErr lkErr s ⟨q, c⟩ =
      (q.foldl (fun a e => a.handle_event serErr lkErr e) s, ⟨[], c⟩) :=
  ⟨tick_nil serErr lkErr s false, tick_nil serErr lkErr s true, tick_run serErr lkErr q s c⟩

/-- Claim C4: draining a `Requesting(n)` event sets `LoadState` to
`Loading(0, n)`; draining a `RetrievedAll(feeds)` event stores the feeds
through `store_all` - keeping only the resulting collection and dropping
the success flag, so a persistence error is discarded and not surfaced
(the equations hold for every error oracle) - replaces the in-memory feed
list with the payload (selection untouched), and sets `LoadState` to
`Done`. -/
theorem C4_tick_requesting_retrievedall (serErr lkErr : Feed → Bool) (s : App)
    (n : Nat) (feeds : List Feed) :
    s.handle_event serErr lkErr (.Requesting n) = { s with loadState := .Loading (0, n) } ∧
    s.handle_event serErr lkErr (.RetrievedAll feeds) =
      { s with db := (store_all serErr lkErr s.db feeds).1,
               feeds := { s.feeds with items := feeds },
               loadState := .Done } :=
  ⟨rfl, rfl⟩

/-- Claim C10: `current_feed` and `current_item` are total: with no
selection or with a stored selection index out of bounds for the current
list (as can happen after the feed list shrinks on `RetrievedAll`) they
return `none`; with an in-bounds selection they return the element at the
selected index. -/
theorem C10_current_total (s : App) (i : Nat) :
    (s.feeds.state.selected = none → s.current_feed = none) ∧
    (s.feeds.state.selected = some i → s.feeds.items.length ≤ i → s.current_feed = none) ∧
    (s.feeds.state.selected = some i →
      ∀ h : i < s.feeds.items.length, s.current_feed = some (s.feeds.items.get ⟨i, h⟩)) ∧
    (s.items.state.selected = none → s.current_item = none) ∧
    (s.items.state.selected = some i → s.items.items.length ≤ i → s.current_item = none) ∧
    (s.items.state.selected = some i →
      ∀ h : i < s.items.items.length, s.current_item = some (s.items.items.get ⟨i, h⟩)) := by
  refine ⟨?_, ?_, ?_, ?_, ?_, ?_⟩ <;> intro hsel
  · simp [App.current_feed, hsel]
  · intro hlen
    simp [App.current_feed, hsel, List.getElem?_eq_none hlen]
  · intro h
    simp [App.current_feed, hsel, List.getElem?_eq_getElem h]
  · simp [App.current_item, hsel]
  · intro hlen
    simp [App.current_item, hsel, List.getElem?_eq_none hlen]
  · intro h
    simp [App.current_item, hsel, List.getElem?_eq_getElem h]

def app10 : App :=
  { activeView := .Feeds,
    feeds := { state := { selected := some 1, offset := 0 }, items := [fU1, fU3] },
    items := {}, loadState := .Done, db := [] }

/-- Witness for C10 at a concrete state: after `RetrievedAll` shrinks the
feed list from two entries to one while the stale selection index 1
remains, `current_feed` returns `none` instead of failing. -/
theorem C10_current_total_witness :
    (App.handle_event noErr noErr app10 (StorageEvent.RetrievedAll [fU1])).feeds.state.selected
        = some 1 ∧
    (App.handle_event noErr noErr app10 (StorageEvent.RetrievedAll [fU1])).feeds.items.length
        = 1 ∧
    (App.handle_event noErr noErr app10 (StorageEvent.RetrievedAll [fU1])).current_feed = none :=
  ⟨by decide, by decide,
    (C10_current_total (App.handle_event noErr noErr app10 (StorageEvent.RetrievedAll [fU1]))
        1).2.1 (by decide) (by decide)⟩

/-! Claim C3: the progress counter. -/

theorem foldl_fetched_loading (serErr lkErr : Feed → Bool) (evs : List StorageEvent) :
    ∀ (s : App) (c n : Nat), evs.all isFetched = true →
      s.loadState = .Loading (c, n) →
      ((evs.foldl (fun a e => a.handle_event serErr lkErr e) s).loadState
        = .Loading (c + evs.length, n)) := by
  induction evs with
  | nil => intro s c n _ hs; simpa using hs
  | cons e rest ih =>
    intro s c n hall hs
    simp only [List.all_cons, Bool.and_eq_true] at hall
    cases e with
    | Fetched counts =>
      have hstep : (s.handle_event serErr lkErr (.Fetched counts)).loadState
          = .Loading (c + 1, n) := by
        simp [App.handle_event, hs]
      have := ih (s.handle_event serErr lkErr (.Fetched counts)) (c + 1) n hall.2 hstep
      simpa [Nat.add_assoc, Nat.add_comm 1 rest.length] using this
    | RetrievedAll feeds => simp [isFetched] at hall
    | Requesting amount => simp [isFetched] at hall

/-- Claim C3, amended: while `LoadState` is `Loading(current, total)`, each
drained `Fetched` event advances it to `Loading(current+1, total)`
independent of the pair carried in the event, so draining `Requesting(n)`
followed by any k `Fetched` events leaves `Loading(k, n)` - the counter is
a count of events observed and the total stays the dispatch count; but
when a `Fetched` event is drained while `LoadState` is NOT `Loading`, the
new state is `Loading` of exactly the pair carried inside the event, which
DOES depend on the event's index. -/
theorem C3_progress_counter (serErr lkErr : Feed → Bool) (s : App) (n : Nat)
    (counts : Nat × Nat) (evs : List StorageEvent)
    (hevs : evs.all isFetched = true) :
    ((StorageEvent.Requesting n :: evs).foldl
        (fun a e => a.handle_event serErr lkErr e) s).loadState
      = .Loading (evs.length, n) ∧
    (∀ current total, s.loadState = .Loading (current, total) →
      (s.handle_event serErr lkErr (.Fetched counts)).loadState
        = .Loading (current + 1, total)) ∧
    (s.loadState.isLoading = false →
      (s.handle_event serErr lkErr (.Fetched counts)).loadState = .Loading counts) := by
  refine ⟨?_, ?_, ?_⟩
  · have h0 : (s.handle_event serErr lkErr (.Requesting n)).loadState = .Loading (0, n) := rfl
    have := foldl_fetched_loading serErr lkErr evs
      (s.handle_event serErr lkErr (.Requesting n)) 0 n hevs h0
    simpa using this
  · intro current total hs
    simp [App.handle_event, hs]
  · intro hs
    cases hls : s.loadState with
    | Loading p => rw [hls] at hs; simp [LoadState.isLoading] at hs
    | Errored => simp [App.handle_event, hls]
    | Done => simp [App.handle_event, hls]

/-- Witness for C3 at a concrete input: from `Done`, draining
`Requesting(2)` and then two `Fetched` events whose carried indices are
the arbitrary values 7 and 7 leaves `Loading(2, 2)`: the counter counted
events, not indices. -/
theorem C3_progress_counter_witness :
    ([StorageEvent.Fetched (7, 2), StorageEvent.Fetched (7, 2)].all isFetched = true) ∧
    (((StorageEvent.Requesting 2 ::
          [StorageEvent.Fetched (7, 2), StorageEvent.Fetched (7, 2)]).foldl
        (fun a e => a.handle_event noErr noErr e) appDone).loadState
      = LoadState.Loading (2, 2) ∧
    (∀ current total, appDone.loadState = .Loading (current, total) →
      (appDone.handle_event noErr noErr (.Fetched (7, 2))).loadState
        = .Loading (current + 1, total)) ∧
    (appDone.loadState.isLoading = false →
      (appDone.handle_event noErr noErr (.Fetched (7, 2))).loadState = .Loading (7, 2))) :=
  ⟨by decide, C3_progress_counter noErr noErr appDone 2 (7, 2)
    [StorageEvent.Fetched (7, 2), StorageEvent.Fetched (7, 2)] (by decide)⟩

/-- Counterexample for C3 as stated: when a `Fetched` event arrives while
`LoadState` is not `Loading` (here `Done`), the resulting state is NOT
independent of the index carried inside the event - two events differing
only in their carried index produce different load states. -/
theorem C3_counterexample :
    (appDone.handle_event noErr noErr (.Fetched (1, 2))).loadState ≠
      (appDone.handle_event noErr noErr (.Fetched (0, 2))).loadState := by decide

/-! Claims C5 and C6: the upsert. -/

/-- Number of stored records carrying a given link. -/
def countLink (db : Db) (link : String) : Nat :=
  db.countP (fun f => f.link == link)

theorem filter_updateOne (f : Feed) (l : String) (hf : f.link = l) (db : Db) :
    countLink db l ≤ 1 → findOne db l ≠ none →
      (updateOne db l f).filter (fun x => x.link == l) = [f] := by
  induction db with
  | nil => intro _ hfind; simp [findOne] at hfind
  | cons g rest ih =>
    intro hcount hfind
    by_cases hg : (g.link == l) = true
    · have hrest : countLink rest l = 0 := by
        simp only [countLink, List.countP_cons, hg, if_true] at hcount ⊢
        omega
      have hnil : rest.filter (fun x => x.link == l) = [] :=
        List.filter_eq_nil_iff.mpr
          (List.countP_eq_zero.mp (by simpa [countLink] using hrest))
      simp [updateOne, hg, List.filter_cons, hf, hnil]
    · have hcount' : countLink rest l ≤ 1 := by
        simp only [countLink, List.countP_cons, hg, if_false] at hcount ⊢
        omega
      have hfind' : findOne rest l ≠ none := by
        simpa [findOne, List.find?_cons, hg] using hfind
      simp [updateOne, hg, List.filter_cons, ih hcount' hfind']

theorem filter_insertOne (f : Feed) (l : String) (hf : f.link = l) (db : Db)
    (hfind : findOne db l = none) :
    (insertOne db f).filter (fun x => x.link == l) = [f] := by
  have hall := List.find?_eq_none.mp hfind
  have hnil : db.filter (fun x => x.link == l) = [] :=
    List.filter_eq_nil_iff.mpr (by intro a ha; simpa using hall a ha)
  simp [insertOne, List.filter_append, hnil, hf]

theorem store_once_filter (db : Db) (f : Feed) (hdb : countLink db f.link ≤ 1) :
    ((store_all noErr noErr db [f]).1).filter (fun x => x.link == f.link) = [f] := by
  cases hfind : findOne db f.link with
  | some g =>
    simp only [store_all, noErr, hfind, if_false, Bool.false_eq_true]
    exact filter_updateOne f f.link rfl db hdb (by simp [hfind])
  | none =>
    simp only [store_all, noErr, hfind, if_false, Bool.false_eq_true]
    exact filter_insertOne f f.link rfl db hfind

/-- Claim C5: the upsert is idempotent per key - storing two feeds with the
same link in sequence (into any collection holding at most one record with
that link, the documented store invariant) leaves exactly one record with
that link, equal to the second value stored wholesale. -/
theorem C5_upsert_idempotent (db : Db) (f g : Feed) (hl : f.link = g.link)
    (hdb : countLink db g.link ≤ 1) :
    ((store_all noErr noErr (store_all noErr noErr db [f]).1 [g]).1).filter
        (fun x => x.link == g.link) = [g] ∧
    countLink ((store_all noErr noErr (store_all noErr noErr db [f]).1 [g]).1) g.link = 1 := by
  have h1 : ((store_all noErr noErr db [f]).1).filter (fun x => x.link == f.link) = [f] :=
    store_once_filter db f (hl ▸ hdb)
  have h2 : countLink (store_all noErr noErr db [f]).1 g.link ≤ 1 := by
    rw [countLink, List.countP_eq_length_filter, ← hl, h1]
    simp
  have h3 : ((store_all noErr noErr (store_all noErr noErr db [f]).1 [g]).1).filter
      (fun x => x.link == g.link) = [g] :=
    store_once_filter (store_all noErr noErr db [f]).1 g h2
  refine ⟨h3, ?_⟩
  rw [countLink, List.countP_eq_length_filter, h3]
  rfl

def f5 : Feed := { title := "first version", link := "u1", lastFetched := 1, items := [] }

def g5 : Feed := { title := "second version", link := "u1", lastFetched := 2, items := [] }

/-- Witness for C5 at a concrete input: after storing `f5` and then `g5`
(same link `"u1"`) into the one-record collection `[fU3]`, exactly one
record with link `"u1"` remains and it equals `g5`. -/
theorem C5_upsert_idempotent_witness :
    (countLink [fU3] g5.link ≤ 1) ∧
    (((store_all noErr noErr (store_all noErr noErr [fU3] [f5]).1 [g5]).1).filter
        (fun x => x.link == g5.link) = [g5] ∧
      countLink ((store_all noErr noErr (store_all noErr noErr [fU3] [f5]).1 [g5]).1)
          g5.link = 1) :=
  ⟨by decide, C5_upsert_idempotent [fU3] f5 g5 rfl (by decide)⟩

theorem store_all_append (lkErr : Feed → Bool) (fs gs : List Feed) :
    ∀ db : Db, (store_all noErr lkErr db (fs ++ gs)).1 =
      (store_all noErr lkErr (store_all noErr lkErr db fs).1 gs).1 := by
  induction fs with
  | nil => intro db; rfl
  | cons f fs ih =>
    intro db
    by_cases hlk : lkErr f = true
    · simp only [List.cons_append, store_all, noErr, hlk, if_false, if_true,
        Bool.false_eq_true]
      exact ih db
    · simp only [List.cons_append, store_all, noErr, hlk, if_false, Bool.false_eq_true]
      cases hfind : findOne db f.link <;> simp [hfind, ih]

/-- Claim C6, amended: the per-feed lookup/update/insert handling of
`store_all` is independent across the batch with no transactional
atomicity - a lookup error silently skips exactly that feed and never
prevents the remaining feeds from being processed, and the batch splits
compositionally - EXCEPT that a serialization failure
(`bson::to_document(feed)?`) on one feed returns early out of the whole
call, leaving that feed and every later feed of the batch unprocessed
(feeds already handled stay stored). -/
theorem C6_store_batch (serErr lkErr : Feed → Bool) (db : Db) (f : Feed)
    (fs gs : List Feed) (hlk : lkErr f = true) (hser : serErr f = true) :
    store_all noErr lkErr db (f :: fs) = store_all noErr lkErr db fs ∧
    (store_all noErr lkErr db (fs ++ gs)).1 =
      (store_all noErr lkErr (store_all noErr lkErr db fs).1 gs).1 ∧
    store_all serErr lkErr db (f :: fs) = (db, false) := by
  refine ⟨?_, store_all_append lkErr fs gs db, ?_⟩
  · simp [store_all, noErr, hlk]
  · simp [store_all, hser]

def fA : Feed := { title := "a", link := "a", lastFetched := 0, items := [] }

def fB : Feed := { title := "b", link := "b", lastFetched := 0, items := [] }

/-- Serialization failing exactly on the record with link `"a"`. -/
def serOnA : Feed → Bool := fun f => f.link == "a"

/-- Lookup failing exactly on the record with link `"a"`. -/
def lkOnA : Feed → Bool := fun f => f.link == "a"

/-- Counterexample for C6 as stated: with serialization failing on `fA`
alone, `store_all` over the batch `[fA, fB]` stores nothing - whereas
processing `fB` alone stores it - so a failure while handling one feed DID
prevent the remaining feed of the batch from being processed. -/
theorem C6_counterexample :
    (store_all serOnA noErr [] [fA, fB]).1 = [] ∧
    (store_all noErr noErr [] [fB]).1 = [fB] := by decide

/-- Witness for C6 at concrete inputs: a lookup error on `fA` skips only
`fA`, the batch splits compositionally, and a serialization error on `fA`
returns the collection unchanged with an error. -/
theorem C6_store_batch_witness :
    (lkOnA fA = true) ∧ (serOnA fA = true) ∧
    (store_all noErr lkOnA [] (fA :: [fB]) = store_all noErr lkOnA [] [fB] ∧
      (store_all noErr lkOnA [] ([fB] ++ [fB])).1 =
        (store_all noErr lkOnA (store_all noErr lkOnA [] [fB]).1 [fB]).1 ∧
      store_all serOnA lkOnA [] (fA :: [fB]) = ([], false)) :=
  ⟨by decide, by decide,
    C6_store_batch serOnA lkOnA [] fA [fB] [fB] (by decide) (by decide)⟩

/-! Claim C9: the stateful-list laws. -/

/-- Claim C9, amended: `next`/`previous` on an empty list are no-ops
leaving the whole list state unchanged; on a list of length L, `next` from
selection L-1 wraps to 0 and `previous` from 0 wraps to L-1; `next` always
leaves an in-bounds selection, and `previous` leaves an in-bounds
selection whenever the selection it started from was in bounds. The
invariant "selected index, when present, < length" is NOT maintained by
every operation of the application, though: `set_feeds` (run on
`RetrievedAll`) replaces the feed list while keeping the old selection, so
a stale out-of-bounds index can persist until the next navigation - reads
stay safe only because `current_feed`/`current_item` bounds-check (C10). -/
theorem C9_list_navigation {α : Type} (l : StatefulList α) (i j : Nat) :
    (l.items = [] → l.next = l ∧ l.previous = l) ∧
    (l.items ≠ [] → l.state.selected = some (l.items.length - 1) →
      l.next.state.selected = some 0) ∧
    (l.items ≠ [] → l.state.selected = some 0 →
      l.previous.state.selected = some (l.items.length - 1)) ∧
    (l.items ≠ [] → l.next.state.selected = some i → i < l.items.length) ∧
    (l.items ≠ [] → l.state.selected = some i → i < l.items.length →
      l.previous.state.selected = some j → j < l.items.length) ∧
    (l.items ≠ [] → l.state.selected = none →
      l.next.state.selected = some 0 ∧ l.previous.state.selected = some 0) := by
  have hlen : l.items = [] ↔ l.items.length = 0 := List.length_eq_zero.symm
  refine ⟨?_, ?_, ?_, ?_, ?_, ?_⟩
  · intro hnil
    constructor <;> simp [StatefulList.next, StatefulList.previous, hlen.mp hnil]
  · intro hne hsel
    have h0 : l.items.length ≠ 0 := fun h => hne (hlen.mpr h)
    simp [StatefulList.next, h0, hsel, ListState.select]
  · intro hne hsel
    have h0 : l.items.length ≠ 0 := fun h => hne (hlen.mpr h)
    simp [StatefulList.previous, h0, hsel, ListState.select]
  · intro hne hsel
    have h0 : l.items.length ≠ 0 := fun h => hne (hlen.mpr h)
    rw [StatefulList.next] at hsel
    simp only [h0, if_false] at hsel
    cases hs : l.state.selected with
    | none => simp [hs, ListState.select] at hsel; omega
    | some k =>
      simp only [hs, ListState.select] at hsel
      by_cases hk : k ≥ l.items.length - 1 <;> simp [hk] at hsel <;> omega
  · intro hne hsel hi hprev
    have h0 : l.items.length ≠ 0 := fun h => hne (hlen.mpr h)
    rw [StatefulList.previous] at hprev
    simp only [h0, if_false, hsel, ListState.select] at hprev
    by_cases hz : i ≤ 0 <;> simp [hz] at hprev <;> omega
  · intro hne hsel
    have h0 : l.items.length ≠ 0 := fun h => hne (hlen.mpr h)
    constructor <;>
      simp [StatefulList.next, StatefulList.previous, h0, hsel, ListState.select]

/-- Witness for C9 at concrete lists over `Nat`: on `[10, 20, 30]`, `next`
from selection 2 wraps to 0 and `previous` from selection 0 wraps to 2. -/
theorem C9_list_navigation_witness :
    ((⟨⟨some 2, 0⟩, [10, 20, 30]⟩ : StatefulList Nat).next.state.selected = some 0) ∧
    ((⟨⟨some 0, 0⟩, [10, 20, 30]⟩ : StatefulList Nat).previous.state.selected = some 2) :=
  ⟨(C9_list_navigation (⟨⟨some 2, 0⟩, [10, 20, 30]⟩ : StatefulList Nat) 0 0).2.1
      (by decide) (by decide),
    (C9_list_navigation (⟨⟨some 0, 0⟩, [10, 20, 30]⟩ : StatefulList Nat) 0 0).2.2.1
      (by decide) (by decide)⟩

def app9 : App :=
  { activeView := .Feeds,
    feeds := { state := { selected := some 1, offset := 0 }, items := [fU1, fU3] },
    items := {}, loadState := .Done, db := [] }

/-- Counterexample for C9 as stated: draining `RetrievedAll([fU1])` (whose
`set_feeds` replaces the two-entry feed list by a one-entry one) keeps the
old selection index 1, so afterwards the selected index is NOT strictly
less than the list length - the invariant does not hold under every
operation. -/
theorem C9_counterexample :
    (App.handle_event noErr noErr app9 (StorageEvent.RetrievedAll [fU1])).feeds.state.selected
        = some 1 ∧
    (App.handle_event noErr noErr app9 (StorageEvent.RetrievedAll [fU1])).feeds.items.length
        = 1 ∧
    ¬ 1 < (App.handle_event noErr noErr app9
        (StorageEvent.RetrievedAll [fU1])).feeds.items.length := by decide

/-! Claim C8: the forward view transitions. -/

/-- Claim C8, amended: `next_view` follows the forward transition table -
with no feed selected it forces `ActiveView = Feeds` regardless of `wrap`;
from `Feeds` with a feed selected it always moves to `Items`,
auto-selecting the first item when no item was selected AND the items list
is nonempty (on an empty items list it still moves to `Items` but nothing
gets selected); from `Items` it moves to `Detail` exactly when an item is
selected, otherwise to `Feeds` when `wrap` and nowhere when not; from
`Detail` it moves to `Feeds` when `wrap` and nowhere otherwise. -/
theorem C8_next_view_table (s : App) (wrap : Bool) :
    (s.current_feed = none → s.next_view wrap = { s with activeView := .Feeds }) ∧
    (s.current_feed.isSome = true → s.activeView = .Feeds →
      (s.next_view wrap).activeView = .Items ∧
      (s.items.state.selected = none → s.items.items ≠ [] →
        (s.next_view wrap).items.state.selected = some 0) ∧
      (s.items.state.selected = none → s.items.items = [] →
        (s.next_view wrap).items = s.items) ∧
      (s.items.state.selected ≠ none → (s.next_view wrap).items = s.items)) ∧
    (s.current_feed.isSome = true → s.activeView = .Items →
      (s.current_item.isSome = true → s.next_view wrap = { s with activeView := .Detail }) ∧
      (s.current_item = none → wrap = true → s.next_view wrap = { s with activeView := .Feeds }) ∧
      (s.current_item = none → wrap = false → s.next_view wrap = s)) ∧
    (s.current_feed.isSome = true → s.activeView = .Detail →
      (wrap = true → s.next_view wrap = { s with activeView := .Feeds }) ∧
      (wrap = false → s.next_view wrap = s)) := by
  refine ⟨?_, ?_, ?_, ?_⟩
  · intro hf
    simp [App.next_view, hf]
  · intro hf hv
    refine ⟨?_, ?_, ?_, ?_⟩
    · simp [App.next_view, hf, hv]
    · intro hsel hne
      have h0 : s.items.items.length ≠ 0 := fun h => hne (List.length_eq_zero.mp h)
      simp [App.next_view, hf, hv, hsel, App.next_item, StatefulList.next, h0,
        ListState.select]
    · intro hsel hnil
      simp [App.next_view, hf, hv, hsel, App.next_item, StatefulList.next, hnil]
    · intro hsel
      simp [App.next_view, hf, hv, Option.isNone_iff_eq_none, hsel]
  · intro hf hv
    refine ⟨?_, ?_, ?_⟩
    · intro hi
      simp [App.next_view, hf, hv, hi]
    · intro hi hw
      simp [App.next_view, hf, hv, hi, hw]
    · intro hi hw
      simp [App.next_view, hf, hv, hi, hw]
  · intro hf hv
    refine ⟨?_, ?_⟩ <;> intro hw <;> simp [App.next_view, hf, hv, hw]

def it1 : Item := { title := some "t", link := none }

def app8 : App :=
  { activeView := .Feeds,
    feeds := { state := { selected := some 0, offset := 0 }, items := [fU1] },
    items := { state := {}, items := [] }, loadState := .Done, db := [] }

def app8b : App :=
  { activeView := .Feeds,
    feeds := { state := { selected := some 0, offset := 0 }, items := [fU1] },
    items := { state := {}, items := [it1] }, loadState := .Done, db := [] }

/-- Counterexample for C8 as stated: from `Feeds` with a feed selected, no
item selected and an empty items list, `next_view` moves to `Items`
without having auto-selected an item. -/
theorem C8_counterexample :
    app8.items.state.selected = none ∧
    (app8.next_view true).activeView = ActiveView.Items ∧
    (app8.next_view true).items.state.selected = none := by decide

/-- Witness for C8 at a concrete state: from `Feeds` with a feed selected,
no item selected and a nonempty items list, `next_view` lands on `Items`
with the first item auto-selected. -/
theorem C8_next_view_table_witness :
    (app8b.next_view false).activeView = ActiveView.Items ∧
    (app8b.next_view false).items.state.selected = some 0 :=
  ⟨((C8_next_view_table app8b false).2.1 (by decide) (by decide)).1,
    ((C8_next_view_table app8b false).2.1 (by decide) (by decide)).2.1
      (by decide) (by decide)⟩

/-! Claim C7: the Custom sort order. -/

theorem customIdx_of_not_mem (urls : List String) (f : Feed) (h : f.link ∉ urls) :
    customIdx urls f = 0 := by
  rw [customIdx]
  have hnone : urls.findIdx? (fun u => f.link == u) = none := by
    rw [List.findIdx?_eq_none_iff]
    intro x hx
    simp only [beq_eq_false_iff_ne, ne_eq]
    intro he
    exact h (he ▸ hx)
  rw [hnone]
  rfl

theorem sort_feeds_custom_sorted (config : Config) (hc : config.sortOrder = .Custom)
    (l : List Feed) :
    List.Sorted (fun a b => customIdx config.feedUrls a ≤ customIdx config.feedUrls b)
      (sort_feeds l config) := by
  have key : ∀ a b : Feed, feedLe config a b = true ↔
      customIdx config.feedUrls a ≤ customIdx config.feedUrls b := by
    intro a b
    simp [feedLe, hc]
  haveI : IsTrans Feed (fun a b => feedLe config a b = true) := by
    refine ⟨fun a b c hab hbc => ?_⟩
    rw [key] at hab hbc ⊢
    omega
  haveI : IsTotal Feed (fun a b => feedLe config a b = true) := by
    refine ⟨fun a b => ?_⟩
    rw [key, key]
    omega
  have hs := List.sorted_insertionSort (fun a b => feedLe config a b = true) l
  exact List.Pairwise.imp (fun hab => (key _ _).mp hab) hs

/-- Claim C7: under the `Custom` sort order both the load-from-store path
(`get_all_from_db`) and the refresh-completion path (the `RetrievedAll`
payload of `refresh_all`) order feeds by the position of each feed's link
in the configured URL list, treating a feed whose link is absent from that
list as position 0 (hence sorting it to the front); each path emits a
permutation of its input feeds. -/
theorem C7_custom_sort (config : Config) (decodeOk : Feed → Bool) (db : Db)
    (results : List (Except FetchErr Feed)) (sched : List Nat) (f : Feed)
    (hc : config.sortOrder = .Custom) :
    (get_all_from_db decodeOk db config).Perm (db.filter decodeOk) ∧
    List.Sorted (fun a b => customIdx config.feedUrls a ≤ customIdx config.feedUrls b)
      (get_all_from_db decodeOk db config) ∧
    (f.link ∉ config.feedUrls → customIdx config.feedUrls f = 0) ∧
    (refresh_all config results sched).getLast? =
      some (.RetrievedAll (sort_feeds (successes results) config)) ∧
    (sort_feeds (successes results) config).Perm (successes results) ∧
    List.Sorted (fun a b => customIdx config.feedUrls a ≤ customIdx config.feedUrls b)
      (sort_feeds (successes results) config) := by
  refine ⟨?_, sort_feeds_custom_sorted config hc _, customIdx_of_not_mem _ f, ?_, ?_,
    sort_feeds_custom_sorted config hc _⟩
  · exact List.perm_insertionSort _ _
  · simp only [refresh_all]
    rw [← List.cons_append]
    exact List.getLast?_concat _
  · exact List.perm_insertionSort _ _

/-- Witness for C7 at the claim's concrete example: configured URL order
`["u1", "u2", "u3"]` and stored feeds with links `u3` and `u1` load as
`[fU1, fU3]`, a sorted permutation of the stored records. -/
theorem C7_custom_sort_witness :
    get_all_from_db (fun _ => true) [fU3, fU1] cfgC = [fU1, fU3] ∧
    (get_all_from_db (fun _ => true) [fU3, fU1] cfgC).Perm
      (([fU3, fU1] : Db).filter (fun _ => true)) :=
  ⟨by decide, (C7_custom_sort cfgC (fun _ => true) [fU3, fU1] [] [] fU1 rfl).1⟩

/-! Claim C1: the shape of one refresh cycle's event trace. -/

/-- Claim C1: for every refresh cycle over N configured URLs and every
completion order of the spawned tasks, the emitted trace opens with
`Requesting(N)`, continues with exactly N `Fetched` events (nothing else
between), and ends with the single `RetrievedAll` event, which the cycle
always reaches whatever the individual outcomes; the `RetrievedAll`
payload consists of the successfully fetched feeds only, so its length is
at most N, and it is empty when every fetch failed. -/
theorem C1_refresh_cycle (config : Config) (results : List (Except FetchErr Feed))
    (sched : List Nat) (hs : sched.Perm (List.range results.length)) :
    (refresh_all config results sched).countP isFetched = results.length ∧
    (refresh_all config results sched).countP isRetrievedAll = 1 ∧
    refresh_all config results sched =
      StorageEvent.Requesting results.length ::
        (sched.map (fun n => StorageEvent.Fetched (n, results.length)) ++
          [StorageEvent.RetrievedAll (sort_feeds (successes results) config)]) ∧
    ((sched.map (fun n => StorageEvent.Fetched (n, results.length))).all isFetched
      = true) ∧
    (sort_feeds (successes results) config).length ≤ results.length ∧
    ((∀ r ∈ results, r.toOption = none) → sort_feeds (successes results) config = []) := by
  have hlen : sched.length = results.length := by simpa using hs.length_eq
  have hplen : (sort_feeds (successes results) config).length = (successes results).length :=
    (List.perm_insertionSort _ _).length_eq
  refine ⟨?_, ?_, rfl, ?_, ?_, ?_⟩
  · simp only [refresh_all, List.countP_cons, List.countP_append, List.countP_map,
      List.countP_nil]
    rw [show (isFetched ∘ fun n => StorageEvent.Fetched (n, results.length)) = fun _ => true
      from rfl, List.countP_true, hlen]
    simp [isFetched]
  · simp [refresh_all, List.countP_cons, List.countP_append, List.countP_map,
      isRetrievedAll, Function.comp]
  · simp [List.all_map, Function.comp, isFetched]
  · rw [hplen]
    exact List.length_filterMap_le _ _
  · intro hall
    have hsucc : successes results = [] := by
      simp only [successes]
      exact List.filterMap_eq_nil_iff.mpr hall
    simp [sort_feeds, hsucc]

/-- Witness for C1 at a concrete input: two configured URLs, the first
fetch succeeding with `fU1` and the second failing, completing in reverse
order; the trace carries exactly 2 `Fetched` events and one `RetrievedAll`
whose payload has at most 2 feeds. -/
theorem C1_refresh_cycle_witness :
    (([1, 0] : List Nat).Perm
      (List.range ([Except.ok fU1, Except.error FetchErr.Request] :
        List (Except FetchErr Feed)).length)) ∧
    (refresh_all cfgC [Except.ok fU1, Except.error FetchErr.Request] [1, 0]).countP isFetched
        = 2 ∧
    (refresh_all cfgC [Except.ok fU1, Except.error FetchErr.Request] [1, 0]).countP
        isRetrievedAll = 1 ∧
    (sort_feeds (successes [Except.ok fU1, Except.error FetchErr.Request]) cfgC).length ≤ 2 :=
  ⟨by decide,
    (C1_refresh_cycle cfgC [Except.ok fU1, Except.error FetchErr.Request] [1, 0]
      (by decide)).1,
    (C1_refresh_cycle cfgC [Except.ok fU1, Except.error FetchErr.Request] [1, 0]
      (by decide)).2.1,
    (C1_refresh_cycle cfgC [Except.ok fU1, Except.error FetchErr.Request] [1, 0]
      (by decide)).2.2.2.2.1⟩

end Moccasin
